import Mathlib

/-!
# Shallow embedding of `tools/ext4slower.py` (BPF program + config substitution)

The tool traces ext4 read/write/open/fsync operations.  Four entry kprobe
handlers store a `val_t` record (timestamp, offset, file pointer) into the
`entryinfo` BPF hash keyed by `bpf_get_current_pid_tgid()`; the shared
kretprobe handler `trace_return` looks the record up, deletes it, computes
the latency, applies the duration filter, resolves the dentry name and
emits a `data_t` event via the perf buffer.

The Python driver textually substitutes `FILTER_PID`, `FILTER_US` and
`EXT4_FILE_OPERATIONS` in the C source; we model those substitutions as a
`Config` record and two predicates with exactly the substituted semantics.

Machine integers are modelled as `Nat` (resp. `Int` for the raw return
register) with explicit `% 2^w` where overflow/truncation matters.
-/

/-- Session configuration produced by the Python driver before the textual
substitution into `bpf_text`: `min_ms` (the positional `min_ms` argument),
the optional `-p PID` filter, and the `ext4_file_operations` address
resolved from `/proc/kallsyms`. -/
structure Config where
  minMs : Nat
  pidFilter : Option Nat
  ext4Ops : Nat
deriving Repr, DecidableEq

/-- The `FILTER_PID` substitution: `'pid != %s' % pid` when `-p` is given,
the constant `0` (false) otherwise. -/
def FILTER_PID (cfg : Config) (pid : Nat) : Bool :=
  match cfg.pidFilter with
  | some p => pid != p
  | none => false

/-- The `FILTER_US` substitution: the constant `0` (false) when
`min_ms == 0`, and `'delta_us <= %s' % str(min_ms * 1000)` otherwise. -/
def FILTER_US (cfg : Config) (delta_us : Nat) : Bool :=
  if cfg.minMs = 0 then false else delta_us ≤ cfg.minMs * 1000

/-- `struct val_t`: timestamp `ts` (ns), `offset`, and the captured
`struct file *fp` modelled as its address (`0` = NULL). -/
structure val_t where
  ts : Nat
  offset : Nat
  fp : Nat
deriving Repr, DecidableEq

/-- `struct data_t`, the fixed-layout event submitted to the perf buffer. -/
structure data_t where
  ts_us : Nat
  type : Char
  size : Nat
  offset : Nat
  delta_us : Nat
  pid : Nat
  task : List Nat
  file : List Nat
deriving Repr, DecidableEq

/-- The `entryinfo` BPF hash, `BPF_HASH(entryinfo, u64, struct val_t)`,
modelled as an association list from the `u64` id to `val_t`. -/
abbrev EntryMap := List (Nat × val_t)

/-- `entryinfo.lookup(&id)`. -/
def mapLookup : EntryMap → Nat → Option val_t
  | [], _ => none
  | (k, w) :: rest, id => if k = id then some w else mapLookup rest id

/-- `entryinfo.update(&id, &val)`: upsert (replace in place, append if
absent). -/
def mapUpdate : EntryMap → Nat → val_t → EntryMap
  | [], id, v => [(id, v)]
  | (k, w) :: rest, id, v =>
      if k = id then (id, v) :: rest else (k, w) :: mapUpdate rest id v

/-- `entryinfo.delete(&id)`. -/
def mapDelete : EntryMap → Nat → EntryMap
  | [], _ => []
  | (k, w) :: rest, id =>
      if k = id then mapDelete rest id else (k, w) :: mapDelete rest id

/-- Kernel-context inputs of an entry handler at one invocation:
`bpf_ktime_get_ns()`, the captured `struct file *` (from `iocb->ki_filp`
for read/write, the `file` parameter for open/fsync), the dereferenced
`fp->f_op` address, and `iocb->ki_pos`. -/
structure EntryCtx where
  now : Nat
  fp : Nat
  fOp : Nat
  kiPos : Nat
deriving Repr, DecidableEq

/-- Kernel-context inputs of a return handler at one invocation:
`bpf_ktime_get_ns()`, the raw return register `PT_REGS_RC(ctx)` (signed
view of the 64-bit register), the current comm, and the dentry name
(length and bytes) reachable from a given `struct file *` address. -/
structure RetCtx where
  now : Nat
  retval : Int
  comm : List Nat
  dnameLen : Nat → Nat
  dnameBytes : Nat → List Nat

/-- The `pid` computed by every handler: `u32 pid = id >> 32`. -/
def pidOf (id : Nat) : Nat := (id >>> 32) % 2 ^ 32

/-- `trace_read_entry`: pid filter, then the ext4 filter
`(u64)fp->f_op != EXT4_FILE_OPERATIONS`, then store the record guarded by
`if (val.fp)`. -/
def trace_read_entry (cfg : Config) (id : Nat) (c : EntryCtx) (m : EntryMap) :
    EntryMap :=
  let pid := pidOf id
  if FILTER_PID cfg pid then m
  else if c.fOp ≠ cfg.ext4Ops then m
  else
    let val : val_t := { ts := c.now, offset := c.kiPos, fp := c.fp }
    if val.fp ≠ 0 then mapUpdate m id val else m

/-- `trace_write_entry`: pid filter, then store the record guarded by
`if (val.fp)` (no f_op check). -/
def trace_write_entry (cfg : Config) (id : Nat) (c : EntryCtx) (m : EntryMap) :
    EntryMap :=
  let pid := pidOf id
  if FILTER_PID cfg pid then m
  else
    let val : val_t := { ts := c.now, offset := c.kiPos, fp := c.fp }
    if val.fp ≠ 0 then mapUpdate m id val else m

/-- `trace_open_entry`: pid filter, then store the record with
`val.offset = 0`, guarded by `if (val.fp)` (no f_op check). -/
def trace_open_entry (cfg : Config) (id : Nat) (c : EntryCtx) (m : EntryMap) :
    EntryMap :=
  let pid := pidOf id
  if FILTER_PID cfg pid then m
  else
    let val : val_t := { ts := c.now, offset := 0, fp := c.fp }
    if val.fp ≠ 0 then mapUpdate m id val else m

/-- `trace_fsync_entry`: pid filter, then store the record with
`val.offset = 0`, guarded by `if (val.fp)` (no f_op check). -/
def trace_fsync_entry (cfg : Config) (id : Nat) (c : EntryCtx) (m : EntryMap) :
    EntryMap :=
  let pid := pidOf id
  if FILTER_PID cfg pid then m
  else
    let val : val_t := { ts := c.now, offset := 0, fp := c.fp }
    if val.fp ≠ 0 then mapUpdate m id val else m

/-- `u64` subtraction `a - b` with wraparound modulo `2^64`. -/
def u64sub (a b : Nat) : Nat := (a + (2 ^ 64 - b % 2 ^ 64)) % 2 ^ 64

/-- `static int trace_return(struct pt_regs *ctx, char type)`: look up the
record (absence ends processing), compute
`delta_us = (ts - valp->ts) / 1000`, delete the record, apply `FILTER_US`,
populate `data_t` (`data.size = PT_REGS_RC(ctx)` truncated to `u32`),
discard if the dentry name length is zero, else read the name bytes and
`perf_submit`.  Returns the updated map and the emitted event, if any. -/
def trace_return (cfg : Config) (type : Char) (id : Nat) (c : RetCtx)
    (m : EntryMap) : EntryMap × Option data_t :=
  let pid := pidOf id
  match mapLookup m id with
  | none => (m, none)
  | some valp =>
    let ts := c.now
    let delta_us := u64sub ts valp.ts / 1000
    let m' := mapDelete m id
    if FILTER_US cfg delta_us then (m', none)
    else
      let data : data_t :=
        { ts_us := ts / 1000
          type := type
          size := (c.retval % (2 ^ 32 : Int)).toNat
          offset := valp.offset
          delta_us := delta_us
          pid := pid
          task := c.comm
          file := [] }
      if c.dnameLen valp.fp = 0 then (m', none)
      else (m', some { data with file := c.dnameBytes valp.fp })

/-- `trace_read_return`. -/
def trace_read_return (cfg : Config) (id : Nat) (c : RetCtx) (m : EntryMap) :
    EntryMap × Option data_t :=
  trace_return cfg 'R' id c m

/-- `trace_write_return`. -/
def trace_write_return (cfg : Config) (id : Nat) (c : RetCtx) (m : EntryMap) :
    EntryMap × Option data_t :=
  trace_return cfg 'W' id c m

/-- `trace_open_return`. -/
def trace_open_return (cfg : Config) (id : Nat) (c : RetCtx) (m : EntryMap) :
    EntryMap × Option data_t :=
  trace_return cfg 'O' id c m

/-- `trace_fsync_return`. -/
def trace_fsync_return (cfg : Config) (id : Nat) (c : RetCtx) (m : EntryMap) :
    EntryMap × Option data_t :=
  trace_return cfg 'S' id c m

/-- One probe firing: which handler runs, with which id and kernel
context. -/
inductive Op where
  | readEntry (id : Nat) (c : EntryCtx)
  | writeEntry (id : Nat) (c : EntryCtx)
  | openEntry (id : Nat) (c : EntryCtx)
  | fsyncEntry (id : Nat) (c : EntryCtx)
  | readReturn (id : Nat) (c : RetCtx)
  | writeReturn (id : Nat) (c : RetCtx)
  | openReturn (id : Nat) (c : RetCtx)
  | fsyncReturn (id : Nat) (c : RetCtx)

/-- System state: the `entryinfo` map and the list of events submitted to
the perf buffer so far. -/
abbrev SysState := EntryMap × List data_t

/-- Dispatch one probe firing on the state. -/
def step (cfg : Config) (s : SysState) (op : Op) : SysState :=
  match op with
  | .readEntry id c => (trace_read_entry cfg id c s.1, s.2)
  | .writeEntry id c => (trace_write_entry cfg id c s.1, s.2)
  | .openEntry id c => (trace_open_entry cfg id c s.1, s.2)
  | .fsyncEntry id c => (trace_fsync_entry cfg id c s.1, s.2)
  | .readReturn id c =>
      let r := trace_read_return cfg id c s.1
      (r.1, s.2 ++ r.2.toList)
  | .writeReturn id c =>
      let r := trace_write_return cfg id c s.1
      (r.1, s.2 ++ r.2.toList)
  | .openReturn id c =>
      let r := trace_open_return cfg id c s.1
      (r.1, s.2 ++ r.2.toList)
  | .fsyncReturn id c =>
      let r := trace_fsync_return cfg id c s.1
      (r.1, s.2 ++ r.2.toList)

/-- Run a sequence of probe firings from a state. -/
def runFrom (cfg : Config) (s : SysState) (ops : List Op) : SysState :=
  ops.foldl (step cfg) s

/-- Run a sequence of probe firings from the initial (empty) state. -/
def run (cfg : Config) (ops : List Op) : SysState :=
  runFrom cfg (([] : EntryMap), ([] : List data_t)) ops

/-! ## Helper lemmas about the `entryinfo` map model -/

theorem mapLookup_update (m : EntryMap) (id : Nat) (v : val_t) (k : Nat) :
    mapLookup (mapUpdate m id v) k = if k = id then some v else mapLookup m k := by
  induction m with
  | nil =>
      by_cases h : k = id
      · simp [mapUpdate, mapLookup, h]
      · simp [mapUpdate, mapLookup, h, Ne.symm h]
  | cons p rest ih =>
      obtain ⟨k', w⟩ := p
      by_cases h1 : k' = id <;> by_cases h2 : k = id
      · simp [mapUpdate, mapLookup, h1, h2]
      · simp [mapUpdate, mapLookup, h1, h2, Ne.symm h2]
      · simp only [mapUpdate, if_neg h1, mapLookup, if_neg (h2 ▸ h1)]
        rw [ih, if_pos h2]
      · simp [mapUpdate, mapLookup, h1, h2, ih]

theorem mapLookup_delete (m : EntryMap) (id : Nat) (k : Nat) :
    mapLookup (mapDelete m id) k = if k = id then none else mapLookup m k := by
  induction m with
  | nil => simp [mapDelete, mapLookup]
  | cons p rest ih =>
      obtain ⟨k', w⟩ := p
      by_cases h1 : k' = id <;> by_cases h2 : k = id
      · rw [mapDelete, if_pos h1, ih, if_pos h2, if_pos h2]
      · simp [mapDelete, mapLookup, h1, h2, ih, Ne.symm h2]
      · rw [mapDelete, if_neg h1, mapLookup, if_neg (h2 ▸ h1), ih, if_pos h2, if_pos h2]
      · simp [mapDelete, mapLookup, h1, h2, ih]

/-- Keys currently present in the map. -/
def keys (m : EntryMap) : List Nat := m.map Prod.fst

theorem mem_keys_update (m : EntryMap) (id : Nat) (v : val_t) (a : Nat)
    (h : a ∈ keys (mapUpdate m id v)) : a = id ∨ a ∈ keys m := by
  induction m with
  | nil => simpa [mapUpdate, keys] using h
  | cons p rest ih =>
      obtain ⟨k', w⟩ := p
      by_cases h1 : k' = id
      · simp only [mapUpdate, if_pos h1, keys, List.map_cons, List.mem_cons] at h ⊢
        rcases h with h | h
        · exact Or.inl h
        · exact Or.inr (Or.inr h)
      · simp only [mapUpdate, if_neg h1, keys, List.map_cons, List.mem_cons] at h ⊢
        rcases h with h | h
        · exact Or.inr (Or.inl h)
        · rcases ih h with h | h
          · exact Or.inl h
          · exact Or.inr (Or.inr h)

theorem mem_keys_delete (m : EntryMap) (id : Nat) (a : Nat)
    (h : a ∈ keys (mapDelete m id)) : a ∈ keys m := by
  induction m with
  | nil => simp [mapDelete, keys] at h
  | cons p rest ih =>
      obtain ⟨k', w⟩ := p
      by_cases h1 : k' = id
      · simp only [mapDelete, if_pos h1, keys, List.map_cons, List.mem_cons] at h ⊢
        exact Or.inr (ih h)
      · simp only [mapDelete, if_neg h1, keys, List.map_cons, List.mem_cons] at h ⊢
        rcases h with h | h
        · exact Or.inl h
        · exact Or.inr (ih h)

theorem nodup_keys_update (m : EntryMap) (id : Nat) (v : val_t)
    (h : (keys m).Nodup) : (keys (mapUpdate m id v)).Nodup := by
  induction m with
  | nil => simp [mapUpdate, keys]
  | cons p rest ih =>
      obtain ⟨k', w⟩ := p
      simp only [keys, List.map_cons, List.nodup_cons] at h
      by_cases h1 : k' = id
      · subst h1
        simp only [mapUpdate, keys, if_true, List.map_cons, List.nodup_cons]
        exact h
      · simp only [mapUpdate, if_neg h1, keys, List.map_cons, List.nodup_cons]
        refine ⟨fun hmem => ?_, ih h.2⟩
        rcases mem_keys_update rest id v k' hmem with h2 | h2
        · exact h1 h2
        · exact h.1 h2

theorem nodup_keys_delete (m : EntryMap) (id : Nat)
    (h : (keys m).Nodup) : (keys (mapDelete m id)).Nodup := by
  induction m with
  | nil => simp [mapDelete, keys]
  | cons p rest ih =>
      obtain ⟨k', w⟩ := p
      simp only [keys, List.map_cons, List.nodup_cons] at h
      by_cases h1 : k' = id
      · simp only [mapDelete, if_pos h1]
        exact ih h.2
      · simp only [mapDelete, if_neg h1, keys, List.map_cons, List.nodup_cons]
        exact ⟨fun hmem => h.1 (mem_keys_delete rest id k' hmem), ih h.2⟩

/-! ## Structural lemmas about the handlers -/

theorem trace_read_entry_shape (cfg : Config) (id : Nat) (c : EntryCtx)
    (m : EntryMap) :
    trace_read_entry cfg id c m = m ∨
    (FILTER_PID cfg (pidOf id) = false ∧ c.fp ≠ 0 ∧
     trace_read_entry cfg id c m =
       mapUpdate m id { ts := c.now, offset := c.kiPos, fp := c.fp }) := by
  simp only [trace_read_entry]
  split_ifs with h1 h2 h3
  · exact Or.inl rfl
  · exact Or.inl rfl
  · exact Or.inr ⟨by simpa using h1, h3, rfl⟩
  · exact Or.inl rfl

theorem trace_write_entry_shape (cfg : Config) (id : Nat) (c : EntryCtx)
    (m : EntryMap) :
    trace_write_entry cfg id c m = m ∨
    (FILTER_PID cfg (pidOf id) = false ∧ c.fp ≠ 0 ∧
     trace_write_entry cfg id c m =
       mapUpdate m id { ts := c.now, offset := c.kiPos, fp := c.fp }) := by
  simp only [trace_write_entry]
  split_ifs with h1 h2
  · exact Or.inl rfl
  · exact Or.inr ⟨by simpa using h1, h2, rfl⟩
  · exact Or.inl rfl

theorem trace_open_entry_shape (cfg : Config) (id : Nat) (c : EntryCtx)
    (m : EntryMap) :
    trace_open_entry cfg id c m = m ∨
    (FILTER_PID cfg (pidOf id) = false ∧ c.fp ≠ 0 ∧
     trace_open_entry cfg id c m =
       mapUpdate m id { ts := c.now, offset := 0, fp := c.fp }) := by
  simp only [trace_open_entry]
  split_ifs with h1 h2
  · exact Or.inl rfl
  · exact Or.inr ⟨by simpa using h1, h2, rfl⟩
  · exact Or.inl rfl

theorem trace_fsync_entry_shape (cfg : Config) (id : Nat) (c : EntryCtx)
    (m : EntryMap) :
    trace_fsync_entry cfg id c m = m ∨
    (FILTER_PID cfg (pidOf id) = false ∧ c.fp ≠ 0 ∧
     trace_fsync_entry cfg id c m =
       mapUpdate m id { ts := c.now, offset := 0, fp := c.fp }) := by
  simp only [trace_fsync_entry]
  split_ifs with h1 h2
  · exact Or.inl rfl
  · exact Or.inr ⟨by simpa using h1, h2, rfl⟩
  · exact Or.inl rfl

theorem trace_return_some (cfg : Config) (t : Char) (id : Nat) (c : RetCtx)
    (m : EntryMap) (v : val_t) (h : mapLookup m id = some v) :
    trace_return cfg t id c m =
      (mapDelete m id,
       if FILTER_US cfg (u64sub c.now v.ts / 1000) then none
       else if c.dnameLen v.fp = 0 then none
       else some { ts_us := c.now / 1000, type := t,
                   size := (c.retval % (2 ^ 32 : Int)).toNat,
                   offset := v.offset, delta_us := u64sub c.now v.ts / 1000,
                   pid := pidOf id, task := c.comm,
                   file := c.dnameBytes v.fp }) := by
  simp only [trace_return, h]
  split_ifs <;> rfl

theorem trace_return_none (cfg : Config) (t : Char) (id : Nat) (c : RetCtx)
    (m : EntryMap) (h : mapLookup m id = none) :
    trace_return cfg t id c m = (m, none) := by
  simp [trace_return, h]

/-! ## Run-level invariants -/

/-- Every stored record is keyed by an id whose pid equals `P`. -/
def PidBound (P : Nat) (m : EntryMap) : Prop :=
  ∀ k v, mapLookup m k = some v → pidOf k = P

/-- Every stored record has a non-null file pointer. -/
def FpNonNull (m : EntryMap) : Prop :=
  ∀ k v, mapLookup m k = some v → v.fp ≠ 0

theorem pidBound_update (P : Nat) (m : EntryMap) (id : Nat) (v : val_t)
    (hm : PidBound P m) (hid : pidOf id = P) : PidBound P (mapUpdate m id v) := by
  intro k w hk
  rw [mapLookup_update] at hk
  split_ifs at hk with h
  · exact h ▸ hid
  · exact hm k w hk

theorem pidBound_delete (P : Nat) (m : EntryMap) (id : Nat)
    (hm : PidBound P m) : PidBound P (mapDelete m id) := by
  intro k w hk
  rw [mapLookup_delete] at hk
  split_ifs at hk with h
  · exact hm k w hk

theorem fpNonNull_update (m : EntryMap) (id : Nat) (v : val_t)
    (hm : FpNonNull m) (hv : v.fp ≠ 0) : FpNonNull (mapUpdate m id v) := by
  intro k w hk
  rw [mapLookup_update] at hk
  split_ifs at hk with h
  · injection hk with h2
    rw [← h2]
    exact hv
  · exact hm k w hk

theorem fpNonNull_delete (m : EntryMap) (id : Nat)
    (hm : FpNonNull m) : FpNonNull (mapDelete m id) := by
  intro k w hk
  rw [mapLookup_delete] at hk
  split_ifs at hk with h
  · exact hm k w hk

theorem filter_pid_false (cfg : Config) (P : Nat) (pid : Nat)
    (hP : cfg.pidFilter = some P) (h : FILTER_PID cfg pid = false) : pid = P := by
  simp [FILTER_PID, hP] at h
  exact h

theorem trace_return_fst (cfg : Config) (t : Char) (id : Nat) (c : RetCtx)
    (m : EntryMap) :
    (trace_return cfg t id c m).1 = m ∨
    (trace_return cfg t id c m).1 = mapDelete m id := by
  cases hl : mapLookup m id with
  | none => rw [trace_return_none cfg t id c m hl]; exact Or.inl rfl
  | some v => rw [trace_return_some cfg t id c m v hl]; exact Or.inr rfl

theorem trace_return_emit (cfg : Config) (t : Char) (id : Nat) (c : RetCtx)
    (m : EntryMap) (ev : data_t) (h : (trace_return cfg t id c m).2 = some ev) :
    (∃ v, mapLookup m id = some v) ∧ ev.pid = pidOf id := by
  cases hl : mapLookup m id with
  | none =>
      rw [trace_return_none cfg t id c m hl] at h
      exact Option.noConfusion h
  | some v =>
      refine ⟨⟨v, rfl⟩, ?_⟩
      rw [trace_return_some cfg t id c m v hl] at h
      simp only at h
      split at h
      next => exact Option.noConfusion h
      next =>
        split at h
        next => exact Option.noConfusion h
        next =>
          injection h with h2
          rw [← h2]

theorem step_map_inv (cfg : Config) (Q : EntryMap → Prop)
    (hupd : ∀ m id v, Q m → FILTER_PID cfg (pidOf id) = false → v.fp ≠ 0 →
      Q (mapUpdate m id v))
    (hdel : ∀ m id, Q m → Q (mapDelete m id))
    (s : SysState) (op : Op) (hs : Q s.1) : Q (step cfg s op).1 := by
  have ret : ∀ t idr cr, Q (trace_return cfg t idr cr s.1).1 := by
    intro t idr cr
    rcases trace_return_fst cfg t idr cr s.1 with h | h
    · rw [h]
      exact hs
    · rw [h]
      exact hdel s.1 idr hs
  cases op with
  | readEntry id c =>
      show Q (trace_read_entry cfg id c s.1)
      rcases trace_read_entry_shape cfg id c s.1 with h | ⟨hf, hfp, h⟩
      · rw [h]
        exact hs
      · rw [h]
        exact hupd s.1 id _ hs hf hfp
  | writeEntry id c =>
      show Q (trace_write_entry cfg id c s.1)
      rcases trace_write_entry_shape cfg id c s.1 with h | ⟨hf, hfp, h⟩
      · rw [h]
        exact hs
      · rw [h]
        exact hupd s.1 id _ hs hf hfp
  | openEntry id c =>
      show Q (trace_open_entry cfg id c s.1)
      rcases trace_open_entry_shape cfg id c s.1 with h | ⟨hf, hfp, h⟩
      · rw [h]
        exact hs
      · rw [h]
        exact hupd s.1 id _ hs hf hfp
  | fsyncEntry id c =>
      show Q (trace_fsync_entry cfg id c s.1)
      rcases trace_fsync_entry_shape cfg id c s.1 with h | ⟨hf, hfp, h⟩
      · rw [h]
        exact hs
      · rw [h]
        exact hupd s.1 id _ hs hf hfp
  | readReturn id c => exact ret 'R' id c
  | writeReturn id c => exact ret 'W' id c
  | openReturn id c => exact ret 'O' id c
  | fsyncReturn id c => exact ret 'S' id c

theorem runFrom_map_inv (cfg : Config) (Q : EntryMap → Prop)
    (hupd : ∀ m id v, Q m → FILTER_PID cfg (pidOf id) = false → v.fp ≠ 0 →
      Q (mapUpdate m id v))
    (hdel : ∀ m id, Q m → Q (mapDelete m id))
    (ops : List Op) :
    ∀ s : SysState, Q s.1 → Q (runFrom cfg s ops).1 := by
  induction ops with
  | nil => intro s hs; exact hs
  | cons op rest ih =>
      intro s hs
      exact ih (step cfg s op) (step_map_inv cfg Q hupd hdel s op hs)

theorem step_pid_inv (cfg : Config) (P : Nat) (hP : cfg.pidFilter = some P)
    (s : SysState) (op : Op) (hm : PidBound P s.1)
    (he : ∀ ev ∈ s.2, ev.pid = P) :
    PidBound P (step cfg s op).1 ∧ ∀ ev ∈ (step cfg s op).2, ev.pid = P := by
  refine ⟨step_map_inv cfg (PidBound P)
    (fun m id v hq hf _ =>
      pidBound_update P m id v hq (filter_pid_false cfg P _ hP hf))
    (fun m id hq => pidBound_delete P m id hq) s op hm, ?_⟩
  have ret : ∀ t idr cr, ∀ ev ∈ s.2 ++ (trace_return cfg t idr cr s.1).2.toList,
      ev.pid = P := by
    intro t idr cr ev hev
    rcases List.mem_append.1 hev with h | h
    · exact he ev h
    · cases hemit : (trace_return cfg t idr cr s.1).2 with
      | none => rw [hemit] at h; cases h
      | some ev' =>
          rw [hemit] at h
          simp only [Option.toList_some, List.mem_singleton] at h
          obtain ⟨⟨v, hv⟩, hpid⟩ :=
            trace_return_emit cfg t idr cr s.1 ev' hemit
          rw [h, hpid]
          exact hm idr v hv
  cases op with
  | readEntry id c => exact he
  | writeEntry id c => exact he
  | openEntry id c => exact he
  | fsyncEntry id c => exact he
  | readReturn id c => exact ret 'R' id c
  | writeReturn id c => exact ret 'W' id c
  | openReturn id c => exact ret 'O' id c
  | fsyncReturn id c => exact ret 'S' id c

theorem runFrom_pid_inv (cfg : Config) (P : Nat) (hP : cfg.pidFilter = some P)
    (ops : List Op) :
    ∀ s : SysState, PidBound P s.1 → (∀ ev ∈ s.2, ev.pid = P) →
      PidBound P (runFrom cfg s ops).1 ∧
      ∀ ev ∈ (runFrom cfg s ops).2, ev.pid = P := by
  induction ops with
  | nil => intro s h1 h2; exact ⟨h1, h2⟩
  | cons op rest ih =>
      intro s h1 h2
      obtain ⟨h1', h2'⟩ := step_pid_inv cfg P hP s op h1 h2
      exact ih (step cfg s op) h1' h2'

/-! ## Arithmetic helpers -/

theorem u64sub_eq (a b : Nat) (hba : b ≤ a) (ha : a < 2 ^ 64) :
    u64sub a b = a - b := by
  have h64 : (2 : Nat) ^ 64 = 18446744073709551616 := by norm_num
  unfold u64sub
  rw [h64] at *
  omega

theorem int_emod_neg (e : Nat) (h1 : 0 < e) (h2 : e ≤ 2 ^ 32) :
    ((-(e : Int)) % (2 ^ 32 : Int)).toNat = 2 ^ 32 - e := by
  have h32 : (2 : Int) ^ 32 = 4294967296 := by norm_num
  have h32n : (2 : Nat) ^ 32 = 4294967296 := by norm_num
  rw [h32, h32n]
  rw [h32n] at h2
  omega

/-! ## Handlers when every entry-side check passes -/

theorem trace_read_entry_pass (cfg : Config) (id : Nat) (c : EntryCtx)
    (m : EntryMap) (hf : FILTER_PID cfg (pidOf id) = false)
    (hop : c.fOp = cfg.ext4Ops) (hfp : c.fp ≠ 0) :
    trace_read_entry cfg id c m =
      mapUpdate m id { ts := c.now, offset := c.kiPos, fp := c.fp } := by
  simp [trace_read_entry, hf, hop, hfp]

theorem trace_write_entry_pass (cfg : Config) (id : Nat) (c : EntryCtx)
    (m : EntryMap) (hf : FILTER_PID cfg (pidOf id) = false) (hfp : c.fp ≠ 0) :
    trace_write_entry cfg id c m =
      mapUpdate m id { ts := c.now, offset := c.kiPos, fp := c.fp } := by
  simp [trace_write_entry, hf, hfp]

theorem trace_open_entry_pass (cfg : Config) (id : Nat) (c : EntryCtx)
    (m : EntryMap) (hf : FILTER_PID cfg (pidOf id) = false) (hfp : c.fp ≠ 0) :
    trace_open_entry cfg id c m =
      mapUpdate m id { ts := c.now, offset := 0, fp := c.fp } := by
  simp [trace_open_entry, hf, hfp]

theorem trace_fsync_entry_pass (cfg : Config) (id : Nat) (c : EntryCtx)
    (m : EntryMap) (hf : FILTER_PID cfg (pidOf id) = false) (hfp : c.fp ≠ 0) :
    trace_fsync_entry cfg id c m =
      mapUpdate m id { ts := c.now, offset := 0, fp := c.fp } := by
  simp [trace_fsync_entry, hf, hfp]

/-- When the record is present, an emitted event is exactly the populated
`data_t`. -/
theorem trace_return_emit_eq (cfg : Config) (t : Char) (id : Nat) (c : RetCtx)
    (m : EntryMap) (v : val_t) (ev : data_t) (h : mapLookup m id = some v)
    (hev : (trace_return cfg t id c m).2 = some ev) :
    ev = { ts_us := c.now / 1000, type := t,
           size := (c.retval % (2 ^ 32 : Int)).toNat,
           offset := v.offset, delta_us := u64sub c.now v.ts / 1000,
           pid := pidOf id, task := c.comm, file := c.dnameBytes v.fp } := by
  rw [trace_return_some cfg t id c m v h] at hev
  simp only at hev
  split at hev
  next => exact Option.noConfusion hev
  next =>
    split at hev
    next => exact Option.noConfusion hev
    next => exact (Option.some.inj hev).symm

/-! ## Claims -/

/-- C1: when `min_ms > 0` an event is emitted only if the computed latency
(`delta_us`, in microseconds) strictly exceeds the configured threshold
`min_ms * 1000` microseconds; when `min_ms = 0` the duration filter passes
every completed operation whose return handler finds an entry record and
whose resolved name is non-empty, producing exactly one event. -/
theorem c1_duration_filter (cfg : Config) (t : Char) (id : Nat) (c : RetCtx)
    (m : EntryMap) :
    (0 < cfg.minMs → ∀ ev, (trace_return cfg t id c m).2 = some ev →
      cfg.minMs * 1000 < ev.delta_us)
    ∧ (cfg.minMs = 0 → ∀ v, mapLookup m id = some v → c.dnameLen v.fp ≠ 0 →
      ((trace_return cfg t id c m).2).isSome = true) := by
  constructor
  · intro hpos ev hev
    cases hl : mapLookup m id with
    | none =>
        rw [trace_return_none cfg t id c m hl] at hev
        exact Option.noConfusion hev
    | some v =>
        have hfu : FILTER_US cfg (u64sub c.now v.ts / 1000) = false := by
          rw [trace_return_some cfg t id c m v hl] at hev
          simp only at hev
          split at hev
          next hf => exact Option.noConfusion hev
          next hf => simpa using hf
        have hne : cfg.minMs ≠ 0 := Nat.pos_iff_ne_zero.mp hpos
        rw [trace_return_emit_eq cfg t id c m v ev hl hev]
        simp only [FILTER_US, if_neg hne, decide_eq_false_iff_not] at hfu
        exact Nat.lt_of_not_le hfu
  · intro h0 v hl hd
    rw [trace_return_some cfg t id c m v hl]
    simp [FILTER_US, h0, hd]

/-- C2: for a paired entry/return on the same id (the stored record's
timestamp is the entry timestamp), the computed nanosecond difference does
not wrap (it equals `returnTimestamp - entryTimestamp` exactly, hence is
non-negative) and the emitted event carries exactly that difference
converted to microseconds. -/
theorem c2_latency_exact (cfg : Config) (t : Char) (id : Nat) (c : RetCtx)
    (m : EntryMap) (v : val_t) (h : mapLookup m id = some v)
    (hle : v.ts ≤ c.now) (hlt : c.now < 2 ^ 64) :
    u64sub c.now v.ts = c.now - v.ts ∧
    ∀ ev, (trace_return cfg t id c m).2 = some ev →
      ev.delta_us = (c.now - v.ts) / 1000 := by
  have heq := u64sub_eq c.now v.ts hle hlt
  refine ⟨heq, fun ev hev => ?_⟩
  rw [trace_return_emit_eq cfg t id c m v ev h hev]
  simp only
  rw [heq]

/-- C3: whenever the return handler finds an entry record for its id, the
record is deleted from `entryinfo` no matter how the duration filter or
the zero-length-name check turn out, so the resulting map never retains a
record for the completed operation. -/
theorem c3_record_removed (cfg : Config) (t : Char) (id : Nat) (c : RetCtx)
    (m : EntryMap) (v : val_t) (h : mapLookup m id = some v) :
    (trace_return cfg t id c m).1 = mapDelete m id ∧
    mapLookup (trace_return cfg t id c m).1 id = none := by
  rw [trace_return_some cfg t id c m v h]
  refine ⟨rfl, ?_⟩
  simp only
  rw [mapLookup_delete, if_pos rfl]

/-- C4: a return handler invocation whose id has no record in `entryinfo`
emits nothing and leaves the whole system state (map and event stream)
unchanged, for each of the four return probes. -/
theorem c4_missing_entry_noop (cfg : Config) (t : Char) (id : Nat)
    (c : RetCtx) (m : EntryMap) (h : mapLookup m id = none) :
    trace_return cfg t id c m = (m, none) ∧
    ∀ l : List data_t,
      step cfg (m, l) (Op.readReturn id c) = (m, l) ∧
      step cfg (m, l) (Op.writeReturn id c) = (m, l) ∧
      step cfg (m, l) (Op.openReturn id c) = (m, l) ∧
      step cfg (m, l) (Op.fsyncReturn id c) = (m, l) := by
  refine ⟨trace_return_none cfg t id c m h, fun l => ?_⟩
  refine ⟨?_, ?_, ?_, ?_⟩ <;>
    simp [step, trace_read_return, trace_write_return, trace_open_return,
      trace_fsync_return, trace_return_none cfg _ id c m h]

/-- C5: a second entry for the same id before the return overwrites the
prior record (last-write-wins): the stored record is the second entry's,
a subsequent return computes its latency against the second entry's
timestamp, and at most one record per id ever exists (the key list of the
map reached by any run has no duplicates). -/
theorem c5_last_write_wins (cfg : Config) (id : Nat) (c1 c2 : EntryCtx)
    (rc : RetCtx) (m : EntryMap)
    (hf : FILTER_PID cfg (pidOf id) = false)
    (hop1 : c1.fOp = cfg.ext4Ops) (hop2 : c2.fOp = cfg.ext4Ops)
    (hfp1 : c1.fp ≠ 0) (hfp2 : c2.fp ≠ 0) :
    mapLookup (trace_read_entry cfg id c2 (trace_read_entry cfg id c1 m)) id =
      some { ts := c2.now, offset := c2.kiPos, fp := c2.fp } ∧
    (∀ ev, (trace_return cfg 'R' id rc
        (trace_read_entry cfg id c2 (trace_read_entry cfg id c1 m))).2 =
          some ev →
      ev.delta_us = u64sub rc.now c2.now / 1000) ∧
    ∀ ops, (keys (run cfg ops).1).Nodup := by
  have hlook : mapLookup
      (trace_read_entry cfg id c2 (trace_read_entry cfg id c1 m)) id =
      some { ts := c2.now, offset := c2.kiPos, fp := c2.fp } := by
    rw [trace_read_entry_pass cfg id c1 m hf hop1 hfp1,
      trace_read_entry_pass cfg id c2 _ hf hop2 hfp2,
      mapLookup_update, if_pos rfl]
  refine ⟨hlook, fun ev hev => ?_, fun ops => ?_⟩
  · rw [trace_return_emit_eq cfg 'R' id rc _ _ ev hlook hev]
  · exact runFrom_map_inv cfg (fun mm => (keys mm).Nodup)
      (fun mm idq vq hq _ _ => nodup_keys_update mm idq vq hq)
      (fun mm idq hq => nodup_keys_delete mm idq hq)
      ops (([], []) : SysState) (by simp [keys])

/-- C6: with `-p P` configured, an entry handler whose pid differs from
`P` leaves the map unchanged (no record created), every event emitted by
any run has `pid = P`, and without `-p` the substituted pid filter is the
constant false (pass-through). -/
theorem c6_pid_filter (cfg : Config) :
    (∀ P, cfg.pidFilter = some P → ∀ id c m, pidOf id ≠ P →
      trace_read_entry cfg id c m = m ∧ trace_write_entry cfg id c m = m ∧
      trace_open_entry cfg id c m = m ∧ trace_fsync_entry cfg id c m = m)
    ∧ (∀ P, cfg.pidFilter = some P → ∀ ops, ∀ ev ∈ (run cfg ops).2, ev.pid = P)
    ∧ (cfg.pidFilter = none → ∀ pid, FILTER_PID cfg pid = false) := by
  refine ⟨?_, ?_, ?_⟩
  · intro P hP id c m hne
    have hfp : FILTER_PID cfg (pidOf id) = true := by
      simp [FILTER_PID, hP, hne]
    refine ⟨?_, ?_, ?_, ?_⟩ <;>
      simp [trace_read_entry, trace_write_entry, trace_open_entry,
        trace_fsync_entry, hfp]
  · intro P hP ops
    exact (runFrom_pid_inv cfg P hP ops (([], []) : SysState)
      (fun k v hk => Option.noConfusion hk)
      (fun ev hev => absurd hev (List.not_mem_nil ev))).2
  · intro h pid
    simp [FILTER_PID, h]

/-- C7: only `trace_read_entry` compares `fp->f_op` against the resolved
`ext4_file_operations` address and creates no record when they differ;
`trace_write_entry`, `trace_open_entry` and `trace_fsync_entry` store the
record for an arbitrary `f_op` value whenever the pid filter passes and
the pointer is non-null. -/
theorem c7_read_only_fop_check (cfg : Config) (id : Nat) (c : EntryCtx)
    (m : EntryMap) :
    (c.fOp ≠ cfg.ext4Ops → trace_read_entry cfg id c m = m)
    ∧ (FILTER_PID cfg (pidOf id) = false → c.fp ≠ 0 →
      mapLookup (trace_write_entry cfg id c m) id =
        some { ts := c.now, offset := c.kiPos, fp := c.fp } ∧
      mapLookup (trace_open_entry cfg id c m) id =
        some { ts := c.now, offset := 0, fp := c.fp } ∧
      mapLookup (trace_fsync_entry cfg id c m) id =
        some { ts := c.now, offset := 0, fp := c.fp }) := by
  refine ⟨fun h => ?_, fun hf hfp => ⟨?_, ?_, ?_⟩⟩
  · simp [trace_read_entry, h]
  · rw [trace_write_entry_pass cfg id c m hf hfp, mapLookup_update,
      if_pos rfl]
  · rw [trace_open_entry_pass cfg id c m hf hfp, mapLookup_update,
      if_pos rfl]
  · rw [trace_fsync_entry_pass cfg id c m hf hfp, mapLookup_update,
      if_pos rfl]

/-- C8: a return handler invocation that finds a record and passes the
duration filter but resolves a zero-length dentry name emits nothing (the
record is still deleted): a silent, non-fatal discard. -/
theorem c8_zero_name_discard (cfg : Config) (t : Char) (id : Nat)
    (c : RetCtx) (m : EntryMap) (v : val_t) (h : mapLookup m id = some v)
    (hfu : FILTER_US cfg (u64sub c.now v.ts / 1000) = false)
    (hd : c.dnameLen v.fp = 0) :
    trace_return cfg t id c m = (mapDelete m id, none) := by
  rw [trace_return_some cfg t id c m v h]
  simp [hfu, hd]

/-- C9: each entry handler stores a record only under the `if (val.fp)`
guard, so a null captured file pointer leaves the map unchanged, and
every record in the map reached by any run has a non-null `fp` (the
invariant that makes `valp->fp` dereference in the return handler safe). -/
theorem c9_fp_nonnull_invariant (cfg : Config) :
    (∀ id c m, c.fp = (0 : Nat) →
      trace_read_entry cfg id c m = m ∧ trace_write_entry cfg id c m = m ∧
      trace_open_entry cfg id c m = m ∧ trace_fsync_entry cfg id c m = m)
    ∧ ∀ ops, FpNonNull (run cfg ops).1 := by
  constructor
  · intro id c m h
    refine ⟨?_, ?_, ?_, ?_⟩ <;>
      simp [trace_read_entry, trace_write_entry, trace_open_entry,
        trace_fsync_entry, h]
  · intro ops
    exact runFrom_map_inv cfg FpNonNull
      (fun mm idq vq hq _ hv => fpNonNull_update mm idq vq hq hv)
      (fun mm idq hq => fpNonNull_delete mm idq hq)
      ops (([], []) : SysState)
      (fun k v hk => Option.noConfusion hk)

/-- C10: an emitted event's `size` is the raw return register truncated
to an unsigned 32-bit value; emission does not depend on the sign of the
return value, and a negative return code `-e` yields
`size = 2^32 - e`. -/
theorem c10_size_truncation (cfg : Config) (t : Char) (id : Nat)
    (c : RetCtx) (m : EntryMap) (v : val_t) (h : mapLookup m id = some v)
    (hfu : FILTER_US cfg (u64sub c.now v.ts / 1000) = false)
    (hd : c.dnameLen v.fp ≠ 0) :
    ∃ ev, (trace_return cfg t id c m).2 = some ev ∧
      ev.size = ((c.retval % (2 ^ 32 : Int))).toNat ∧
      ∀ e : Nat, 0 < e → e ≤ 2 ^ 32 → c.retval = -(e : Int) →
        ev.size = 2 ^ 32 - e := by
  refine ⟨{ ts_us := c.now / 1000, type := t,
            size := (c.retval % (2 ^ 32 : Int)).toNat,
            offset := v.offset, delta_us := u64sub c.now v.ts / 1000,
            pid := pidOf id, task := c.comm, file := c.dnameBytes v.fp },
    ?_, rfl, ?_⟩
  · rw [trace_return_some cfg t id c m v h]
    simp [hfu, hd]
  · intro e h1 h2 h3
    simp only
    rw [h3]
    exact int_emod_neg e h1 h2

/-! ## Concrete instances used by the witnesses -/

/-- Threshold 10 ms, no pid filter, ext4 ops table at address 5. -/
def cfg10 : Config := { minMs := 10, pidFilter := none, ext4Ops := 5 }

/-- Threshold 0 (trace everything), no pid filter. -/
def cfg0 : Config := { minMs := 0, pidFilter := none, ext4Ops := 5 }

/-- Threshold 0 with `-p 7`. -/
def cfgP : Config := { minMs := 0, pidFilter := some 7, ext4Ops := 5 }

/-- A pid_tgid id with pid 7 (upper 32 bits) and tid 3. -/
def id7 : Nat := 7 * 2 ^ 32 + 3

/-- A pid_tgid id with pid 8. -/
def id8 : Nat := 8 * 2 ^ 32

/-- A stored record: entry at 1000 ns, offset 4096, file pointer 2. -/
def v0 : val_t := { ts := 1000, offset := 4096, fp := 2 }

/-- A map holding `v0` under `id7`. -/
def m0 : EntryMap := [(id7, v0)]

/-- Return context at 20001000 ns with return value 123 and name "abc". -/
def rc0 : RetCtx :=
  { now := 20001000, retval := 123, comm := [65],
    dnameLen := fun _ => 3, dnameBytes := fun _ => [97, 98, 99] }

/-- Return context whose return register holds the error code -2. -/
def rcNeg : RetCtx :=
  { now := 20001000, retval := -2, comm := [65],
    dnameLen := fun _ => 3, dnameBytes := fun _ => [97, 98, 99] }

/-- Return context resolving a zero-length dentry name. -/
def rcZ : RetCtx :=
  { now := 20001000, retval := 3, comm := [65],
    dnameLen := fun _ => 0, dnameBytes := fun _ => [] }

/-- Return context at 5 ms (5000000 ns). -/
def rc5 : RetCtx :=
  { now := 5000000, retval := 0, comm := [65],
    dnameLen := fun _ => 3, dnameBytes := fun _ => [97] }

/-- Entry context at t = 0 with a matching f_op and pointer 2. -/
def ec1 : EntryCtx := { now := 0, fp := 2, fOp := 5, kiPos := 0 }

/-- Entry context at t = 1 ms with a matching f_op and pointer 4. -/
def ec2 : EntryCtx := { now := 1000000, fp := 4, fOp := 5, kiPos := 8 }

/-- Entry context whose f_op (6) differs from the resolved constant (5). -/
def ecBad : EntryCtx := { now := 0, fp := 2, fOp := 6, kiPos := 0 }

/-- Entry context with a NULL captured file pointer. -/
def ecNull : EntryCtx := { now := 0, fp := 0, fOp := 5, kiPos := 0 }

/-- The event emitted by `trace_return cfg10 'R' id7 rc0 m0`. -/
def ev10 : data_t :=
  { ts_us := 20001, type := 'R', size := 123,
    offset := 4096, delta_us := 20000, pid := 7, task := [65],
    file := [97, 98, 99] }

/-- The event emitted after entries `ec1`, `ec2` and return `rc5`. -/
def ev5 : data_t :=
  { ts_us := 5000, type := 'R', size := 0, offset := 8,
    delta_us := 4000, pid := 7, task := [65], file := [97] }

/-- The event emitted by the run in the C6 witness. -/
def evP : data_t :=
  { ts_us := 20001, type := 'R', size := 123, offset := 0,
    delta_us := 20001, pid := 7, task := [65], file := [97, 98, 99] }

/-- The event emitted when the return register holds -2. -/
def evNeg : data_t :=
  { ts_us := 20001, type := 'O', size := 4294967294,
    offset := 4096, delta_us := 20000, pid := 7, task := [65],
    file := [97, 98, 99] }

/-! ## Witnesses -/

/-- C1 witness at `min_ms = 10` (event latency 20000 us > 10000 us) and at
`min_ms = 0` (event emitted). -/
theorem c1_duration_filter_witness :
    cfg10.minMs * 1000 < ev10.delta_us ∧
    ((trace_return cfg0 'R' id7 rc0 m0).2).isSome = true :=
  ⟨(c1_duration_filter cfg10 'R' id7 rc0 m0).1 (by decide) ev10 (by decide),
   (c1_duration_filter cfg0 'R' id7 rc0 m0).2 rfl v0 (by decide) (by decide)⟩

/-- C2 witness: entry at 1000 ns, return at 20001000 ns, emitted latency
is exactly the difference in microseconds. -/
theorem c2_latency_exact_witness :
    u64sub rc0.now v0.ts = rc0.now - v0.ts ∧
    ev10.delta_us = (rc0.now - v0.ts) / 1000 :=
  ⟨(c2_latency_exact cfg10 'R' id7 rc0 m0 v0 (by decide) (by decide)
      (by decide)).1,
   (c2_latency_exact cfg10 'R' id7 rc0 m0 v0 (by decide) (by decide)
      (by decide)).2 ev10 (by decide)⟩

/-- C3 witness: the record is deleted by the return handler. -/
theorem c3_record_removed_witness :
    (trace_return cfg10 'R' id7 rc0 m0).1 = mapDelete m0 id7 ∧
    mapLookup (trace_return cfg10 'R' id7 rc0 m0).1 id7 = none :=
  c3_record_removed cfg10 'R' id7 rc0 m0 v0 (by decide)

/-- C4 witness: a return with no record leaves the state unchanged. -/
theorem c4_missing_entry_noop_witness :
    trace_return cfg10 'R' 5 rc0 [] = ([], none) ∧
    step cfg10 ([], []) (Op.readReturn 5 rc0) = ([], []) :=
  ⟨(c4_missing_entry_noop cfg10 'R' 5 rc0 [] (by decide)).1,
   ((c4_missing_entry_noop cfg10 'R' 5 rc0 [] (by decide)).2 []).1⟩

/-- C5 witness: entries at t=0 and t=1 ms, return at t=5 ms, latency
4000 us computed against the second entry. -/
theorem c5_last_write_wins_witness :
    mapLookup (trace_read_entry cfg0 id7 ec2 (trace_read_entry cfg0 id7 ec1
      [])) id7 = some { ts := 1000000, offset := 8, fp := 4 } ∧
    ev5.delta_us = u64sub 5000000 1000000 / 1000 ∧
    (keys (run cfg0 [Op.readEntry id7 ec1, Op.readEntry id7 ec2]).1).Nodup :=
  ⟨(c5_last_write_wins cfg0 id7 ec1 ec2 rc5 [] (by decide) (by decide)
      (by decide) (by decide) (by decide)).1,
   (c5_last_write_wins cfg0 id7 ec1 ec2 rc5 [] (by decide) (by decide)
      (by decide) (by decide) (by decide)).2.1 ev5 (by decide),
   (c5_last_write_wins cfg0 id7 ec1 ec2 rc5 [] (by decide) (by decide)
      (by decide) (by decide) (by decide)).2.2
     [Op.readEntry id7 ec1, Op.readEntry id7 ec2]⟩

/-- C6 witness: pid 8 entry filtered out under `-p 7`; the event emitted
by a passing run has pid 7; no `-p` means the filter is constant false. -/
theorem c6_pid_filter_witness :
    trace_read_entry cfgP id8 ec1 [] = [] ∧ evP.pid = 7 ∧
    FILTER_PID cfg0 9 = false :=
  ⟨((c6_pid_filter cfgP).1 7 rfl id8 ec1 [] (by decide)).1,
   (c6_pid_filter cfgP).2.1 7 rfl
     [Op.readEntry id7 ec1, Op.readReturn id7 rc0] evP (by decide),
   (c6_pid_filter cfg0).2.2 rfl 9⟩

/-- C7 witness: read entry with f_op 6 ≠ 5 creates no record; write entry
with the same context stores one. -/
theorem c7_read_only_fop_check_witness :
    trace_read_entry cfg0 id7 ecBad [] = [] ∧
    mapLookup (trace_write_entry cfg0 id7 ecBad []) id7 =
      some { ts := 0, offset := 0, fp := 2 } :=
  ⟨(c7_read_only_fop_check cfg0 id7 ecBad []).1 (by decide),
   ((c7_read_only_fop_check cfg0 id7 ecBad []).2 (by decide) (by decide)).1⟩

/-- C8 witness: record present, duration filter passed, zero-length name:
record deleted, nothing emitted. -/
theorem c8_zero_name_discard_witness :
    trace_return cfg10 'W' id7 rcZ m0 = (mapDelete m0 id7, none) :=
  c8_zero_name_discard cfg10 'W' id7 rcZ m0 v0 (by decide) (by decide)
    (by decide)

/-- C9 witness: a NULL pointer entry is a no-op, and the record stored by
a run has a non-null pointer. -/
theorem c9_fp_nonnull_invariant_witness :
    trace_read_entry cfg0 id7 ecNull [] = [] ∧
    ({ ts := 0, offset := 0, fp := 2 } : val_t).fp ≠ 0 :=
  ⟨((c9_fp_nonnull_invariant cfg0).1 id7 ecNull [] (by decide)).1,
   (c9_fp_nonnull_invariant cfg0).2 [Op.readEntry id7 ec1] id7
     { ts := 0, offset := 0, fp := 2 } (by decide)⟩

/-- C10 witness: return register -2 still emits, with
`size = 2^32 - 2 = 4294967294`. -/
theorem c10_size_truncation_witness :
    (trace_return cfg10 'O' id7 rcNeg m0).2 = some evNeg ∧
    evNeg.size = 2 ^ 32 - 2 := by
  have heq : (trace_return cfg10 'O' id7 rcNeg m0).2 = some evNeg := by
    decide
  obtain ⟨ev, hev, _, hneg⟩ := c10_size_truncation cfg10 'O' id7 rcNeg m0
    v0 (by decide) (by decide) (by decide)
  have hee : ev = evNeg := Option.some.inj (hev.symm.trans heq)
  exact ⟨heq, hee ▸ hneg 2 (by decide) (by decide) (by decide)⟩
